import Mathlib

/-!
Shallow embedding of `src/app.py`, a pedagogical script contrasting
sequential, thread-pool and process-pool execution of a CPU-bound workload
(`count_primes`) and an I/O-bound workload (`simulate_io`), together with a
timing harness (`measure_time`) and a console demonstration driver.

Modelling conventions:
* Python integers are `Nat` (all quantities here are non-negative machine-free
  integers); durations and timestamps are `ℚ` (exact rationals, avoiding
  floating point).
* Fallible Python calls are `Except PyErr`; an uncaught Python exception is an
  `.error` value and normal return is `.ok`.
* Wall-clock reads (`time.time()`) are modelled as explicit timestamp
  parameters threaded into the functions that sample the clock.
* Worker pools run independent, deterministic tasks; a future stores the value
  (or exception) of its own task, and results are collected in submission
  order, so the pools' value-level semantics is captured by evaluating each
  submitted task.  Wall-clock overlap of tasks is a real-time property and is
  not modelled.
-/

namespace App

/-- A Python exception value, as far as this program can observe one. -/
inductive PyErr where
  | valueError (msg : String)
deriving DecidableEq, Repr

/-- The integer square root, as computed by Python's `int(math.sqrt(num))`
for the magnitudes this program uses: the number of positive `k` with
`k * k ≤ n`.  This counting form reduces in the kernel; `isqrt_eq_sqrt`
below identifies it with Mathlib's `Nat.sqrt`. -/
def isqrt (n : Nat) : Nat :=
  (List.range' 1 n).countP (fun k => k * k ≤ n)

/-- `count_primes(n)` from `src/app.py` lines 11-18: iterate `num` over
`range(2, n)`, and count `num` when `all(num % i != 0 for i in
range(2, int(math.sqrt(num)) + 1))`. -/
def count_primes (n : Nat) : Nat :=
  (List.range' 2 (n - 2)).foldl
    (fun count num =>
      if (List.range' 2 (isqrt num + 1 - 2)).all (fun i => num % i != 0)
      then count + 1
      else count)
    0

/-- Modelled from the spec: `time.sleep` is Python standard-library code that
is not part of this repository.  Per its documented behaviour it suspends the
caller for the given duration (a timing effect, not modelled here) and raises
`ValueError` for a negative duration. -/
def sleep (duration : ℚ) : Except PyErr Unit :=
  if duration < 0 then .error (.valueError "sleep length must be non-negative")
  else .ok ()

/-- `simulate_io(duration)` from `src/app.py` lines 22-24: call
`time.sleep(duration)` then return `duration`. -/
def simulate_io (duration : ℚ) : Except PyErr ℚ := do
  let _ ← sleep duration
  pure duration

/-- `measure_time(func, *args, **kwargs)` from `src/app.py` lines 29-33:
record `start = time.time()`, run `result = func(*args, **kwargs)`, record
`end = time.time()`, and return `(result, end - start)`.  The two clock reads
are the explicit parameters `tStart` and `tEnd`; an exception raised by `func`
propagates (the Python code has no handler around the call). -/
def measure_time {α β : Type} (func : α → Except PyErr β) (arg : α)
    (tStart tEnd : ℚ) : Except PyErr (β × ℚ) :=
  match func arg with
  | .error e => .error e
  | .ok result => .ok (result, tEnd - tStart)

/-- A `concurrent.futures` future for a task already submitted to a pool: it
stores the outcome of its own task, and `Future.result` re-raises the task's
exception or returns its value. -/
structure Future (β : Type) where
  result : Except PyErr β

/-- `executor.submit(work, arg)`: the pool will run `work arg`; the returned
future yields that task's outcome.  Tasks in this program are independent and
deterministic, so the value stored in the future does not depend on which
worker runs it or when. -/
def submit {α β : Type} (work : α → Except PyErr β) (arg : α) : Future β :=
  ⟨work arg⟩

/-- The sequential runners (`run_sequential` in both demos, `src/app.py`
lines 45-46 and 84-85): a list comprehension invoking the workload once per
repetition.  A raised exception aborts the comprehension and propagates. -/
def run_sequential {α β : Type} (work : α → Except PyErr β) (arg : α)
    (k : Nat) : Except PyErr (List β) :=
  (List.range k).mapM (fun _ => work arg)

/-- The thread-pool runners (`run_with_threads` in both demos, `src/app.py`
lines 53-56 and 93-96): submit one task per repetition to a
`ThreadPoolExecutor(max_workers=4)`, then collect `f.result()` for each future
in submission order.  The worker count affects only timing, which is not
modelled. -/
def run_with_threads {α β : Type} (work : α → Except PyErr β) (arg : α)
    (k : Nat) : Except PyErr (List β) :=
  let futures := (List.range k).map (fun _ => submit work arg)
  futures.mapM (fun f => f.result)

/-- The process-pool runners (`run_with_processes` in both demos,
`src/app.py` lines 64-67 and 104-107): same value-level structure as the
thread-pool runners, with a `ProcessPoolExecutor(max_workers=4)`. -/
def run_with_processes {α β : Type} (work : α → Except PyErr β) (arg : α)
    (k : Nat) : Except PyErr (List β) :=
  let futures := (List.range k).map (fun _ => submit work arg)
  futures.mapM (fun f => f.result)

/-- The CPU-bound workload as a submittable task; `count_primes` itself is
total, so it always returns normally. -/
def count_primes_task (n : Nat) : Except PyErr Nat :=
  .ok (count_primes n)

/-! ### Correctness of the trial-division prime count -/

theorem isqrt_eq_sqrt (n : Nat) : isqrt n = Nat.sqrt n := by
  have hs : Nat.sqrt n ≤ n := Nat.sqrt_le_self n
  have hsplit : List.range' 1 (Nat.sqrt n) ++ List.range' (1 + Nat.sqrt n) (n - Nat.sqrt n)
      = List.range' 1 n := by
    have h := List.range'_append 1 (Nat.sqrt n) (n - Nat.sqrt n) 1
    rw [Nat.one_mul, Nat.sub_add_cancel hs] at h
    exact h
  unfold isqrt
  rw [← hsplit, List.countP_append]
  have h1 : (List.range' 1 (Nat.sqrt n)).countP (fun k => k * k ≤ n)
      = (List.range' 1 (Nat.sqrt n)).length := by
    rw [List.countP_eq_length]
    intro a ha
    rw [List.mem_range'_1] at ha
    simp only [decide_eq_true_eq]
    exact Nat.le_sqrt.mp (by omega)
  have h2 : (List.range' (1 + Nat.sqrt n) (n - Nat.sqrt n)).countP (fun k => k * k ≤ n) = 0 := by
    rw [List.countP_eq_zero]
    intro a ha
    rw [List.mem_range'_1] at ha
    simp only [decide_eq_true_eq]
    intro hle
    have := Nat.le_sqrt.mpr hle
    omega
  rw [h1, h2, List.length_range']
  omega

/-- The inner `all` of `count_primes` is a correct primality test for every
candidate `num ≥ 2` (every element of `range(2, n)`). -/
theorem trial_division_eq_prime (num : Nat) (h2 : 2 ≤ num) :
    ((List.range' 2 (isqrt num + 1 - 2)).all (fun i => num % i != 0) = true)
      ↔ Nat.Prime num := by
  have h1 : 1 ≤ Nat.sqrt num := Nat.le_sqrt.mpr (by omega)
  have hrange : ∀ i : Nat,
      i ∈ List.range' 2 (isqrt num + 1 - 2) ↔ 2 ≤ i ∧ i ≤ Nat.sqrt num := by
    intro i
    rw [List.mem_range'_1, isqrt_eq_sqrt]
    omega
  rw [List.all_eq_true, Nat.prime_def_le_sqrt]
  constructor
  · intro h
    refine ⟨h2, fun m hm2 hms => ?_⟩
    have hmod := h m ((hrange m).mpr ⟨hm2, hms⟩)
    simp only [bne_iff_ne, ne_eq] at hmod
    exact fun hdvd => hmod (Nat.dvd_iff_mod_eq_zero.mp hdvd)
  · rintro ⟨-, hp⟩ i hi
    have hnd := hp i ((hrange i).mp hi).1 ((hrange i).mp hi).2
    simp only [bne_iff_ne, ne_eq]
    exact fun hmod => hnd (Nat.dvd_iff_mod_eq_zero.mpr hmod)

/-- The counting loop of `count_primes` is `List.countP` of its test. -/
theorem foldl_count (p : Nat → Bool) :
    ∀ (l : List Nat) (c : Nat),
      l.foldl (fun count num => if p num then count + 1 else count) c = c + l.countP p
  | [], _ => by simp
  | x :: xs, c => by
    by_cases hx : p x
    · rw [List.foldl_cons, List.countP_cons, if_pos hx, hx,
        foldl_count p xs (c + 1)]
      simp
      omega
    · rw [List.foldl_cons, List.countP_cons, if_neg hx,
        foldl_count p xs c]
      simp [hx]

theorem count_primes_eq_card (n : Nat) :
    count_primes n = ((Finset.range n).filter Nat.Prime).card := by
  rw [← Nat.count_eq_card_filter_range]
  unfold count_primes
  rw [foldl_count (fun num =>
    (List.range' 2 (isqrt num + 1 - 2)).all (fun i => num % i != 0))]
  rw [Nat.zero_add]
  by_cases hn : 2 ≤ n
  · have hsplit : List.range' 0 2 ++ List.range' 2 (n - 2) = List.range' 0 n := by
      have h := List.range'_append 0 2 (n - 2) 1
      rw [Nat.sub_add_cancel hn] at h
      simpa using h
    have hcount : Nat.count Nat.Prime n
        = (List.range' 0 n).countP (fun x => Nat.Prime x) := by
      rw [Nat.count, List.range_eq_range']
    rw [hcount, ← hsplit, List.countP_append]
    have h0 : (List.range' 0 2).countP (fun x => Nat.Prime x) = 0 := by
      rw [List.countP_eq_zero]
      intro a ha
      rw [List.mem_range'_1] at ha
      simp only [decide_eq_true_eq]
      intro hp
      have := hp.two_le
      omega
    rw [h0, Nat.zero_add]
    refine List.countP_congr (fun num hmem => ?_)
    rw [List.mem_range'_1] at hmem
    simp only [decide_eq_true_eq]
    constructor
    · intro h
      exact (trial_division_eq_prime num (by omega)).mp h
    · intro h
      exact (trial_division_eq_prime num (by omega)).mpr h
  · have hn2 : n - 2 = 0 := by omega
    rw [hn2]
    interval_cases n
    · simp [Nat.count_zero, List.range']
    · simp [Nat.count_succ, Nat.count_zero, Nat.not_prime_zero, List.range']

/-! ### Value-level behaviour of the workloads, harness and runners -/

theorem simulate_io_ok (d : ℚ) (hd : 0 ≤ d) : simulate_io d = .ok d := by
  unfold simulate_io sleep
  rw [if_neg (by exact not_lt.mpr hd)]
  rfl

theorem measure_time_ok {α β : Type} (func : α → Except PyErr β) (arg : α)
    (tStart tEnd : ℚ) (v : β) (hv : func arg = .ok v) :
    measure_time func arg tStart tEnd = .ok (v, tEnd - tStart) := by
  unfold measure_time
  rw [hv]

theorem mapM_const_ok {β γ : Type} (w : Except PyErr β) (v : β) (hv : w = .ok v) :
    ∀ l : List γ, l.mapM (fun _ => w) = .ok (List.replicate l.length v)
  | [] => rfl
  | x :: xs => by
    rw [List.mapM_cons, mapM_const_ok w v hv xs, hv]
    rfl

theorem mapM_result_map_submit {α β γ : Type} (work : α → Except PyErr β)
    (arg : α) (l : List γ) :
    (l.map (fun _ => submit work arg)).mapM (fun f => f.result)
      = l.mapM (fun _ => work arg) := by
  induction l with
  | nil => rfl
  | cons x xs ih =>
    rw [List.map_cons, List.mapM_cons, List.mapM_cons, ih]
    rfl

theorem run_sequential_ok {α β : Type} (work : α → Except PyErr β) (arg : α)
    (k : Nat) (v : β) (hv : work arg = .ok v) :
    run_sequential work arg k = .ok (List.replicate k v) := by
  unfold run_sequential
  rw [mapM_const_ok (work arg) v hv, List.length_range]

theorem run_with_threads_ok {α β : Type} (work : α → Except PyErr β) (arg : α)
    (k : Nat) (v : β) (hv : work arg = .ok v) :
    run_with_threads work arg k = .ok (List.replicate k v) := by
  unfold run_with_threads
  rw [mapM_result_map_submit, mapM_const_ok (work arg) v hv, List.length_range]

theorem run_with_processes_ok {α β : Type} (work : α → Except PyErr β) (arg : α)
    (k : Nat) (v : β) (hv : work arg = .ok v) :
    run_with_processes work arg k = .ok (List.replicate k v) := by
  unfold run_with_processes
  rw [mapM_result_map_submit, mapM_const_ok (work arg) v hv, List.length_range]

/-! ### The demonstration driver

The two demo routines print a section header, then for each strategy in the
fixed order sequential / threads / processes print an elapsed-time line
(threads and processes are each followed by a commentary line).  Console
output is modelled as a list of structured `Line` values; the wall-clock
reads inside the three `measure_time` calls of a demo are the samples
`ts 0, ..., ts 5` of a clock parameter `ts`. -/

/-- The execution strategy a printed line refers to. -/
inductive Strategy where
  | sequential
  | threads
  | processes
deriving DecidableEq, Repr

/-- Which demonstration a printed line belongs to. -/
inductive Workload where
  | cpuBound
  | ioBound
deriving DecidableEq, Repr

/-- One line of console output: the section header of a demonstration, a
strategy's elapsed-time report, or a commentary note. -/
inductive Line where
  | header (w : Workload)
  | timing (w : Workload) (s : Strategy) (elapsed : ℚ)
  | note (w : Workload) (s : Strategy)
deriving DecidableEq, Repr

/-- `N = 50_000` from `demo_cpu_bound` (`src/app.py` line 41). -/
def N : Nat := 50000

/-- `times_to_run = 4`, the repetition count used by both demos
(`src/app.py` lines 42 and 80). -/
def times_to_run : Nat := 4

/-- `delay = 1` from `demo_io_bound` (`src/app.py` line 81). -/
def delay : ℚ := 1

/-- `demo_cpu_bound()` from `src/app.py` lines 38-71: header, then time and
report the three strategies on `count_primes(N)` in the order sequential,
threads, processes. -/
def demo_cpu_bound (ts : Nat → ℚ) : Except PyErr (List Line) := do
  let r1 ← measure_time (fun _ : Unit => run_sequential count_primes_task N times_to_run)
    () (ts 0) (ts 1)
  let r2 ← measure_time (fun _ : Unit => run_with_threads count_primes_task N times_to_run)
    () (ts 2) (ts 3)
  let r3 ← measure_time (fun _ : Unit => run_with_processes count_primes_task N times_to_run)
    () (ts 4) (ts 5)
  pure [Line.header .cpuBound,
        Line.timing .cpuBound .sequential r1.2,
        Line.timing .cpuBound .threads r2.2,
        Line.note .cpuBound .threads,
        Line.timing .cpuBound .processes r3.2,
        Line.note .cpuBound .processes]

/-- `demo_io_bound()` from `src/app.py` lines 76-111: header, then time and
report the three strategies on `simulate_io(delay)` in the order sequential,
threads, processes. -/
def demo_io_bound (ts : Nat → ℚ) : Except PyErr (List Line) := do
  let r1 ← measure_time (fun _ : Unit => run_sequential simulate_io delay times_to_run)
    () (ts 0) (ts 1)
  let r2 ← measure_time (fun _ : Unit => run_with_threads simulate_io delay times_to_run)
    () (ts 2) (ts 3)
  let r3 ← measure_time (fun _ : Unit => run_with_processes simulate_io delay times_to_run)
    () (ts 4) (ts 5)
  pure [Line.header .ioBound,
        Line.timing .ioBound .sequential r1.2,
        Line.timing .ioBound .threads r2.2,
        Line.note .ioBound .threads,
        Line.timing .ioBound .processes r3.2,
        Line.note .ioBound .processes]

/-- The `if __name__ == "__main__":` block (`src/app.py` lines 113-116):
run the CPU-bound demonstration, then the I/O-bound demonstration; the
program's console output is their output in that order. -/
def main (ts1 ts2 : Nat → ℚ) : Except PyErr (List Line) := do
  let a ← demo_cpu_bound ts1
  let b ← demo_io_bound ts2
  pure (a ++ b)

/-- An `Except` value determines its successful payload uniquely; used for
the idempotence claim about repeated runner invocations. -/
theorem ok_payload_unique {γ : Type} (e : Except PyErr (List γ))
    (l1 l2 : List γ) (h1 : e = .ok l1) (h2 : e = .ok l2) :
    Multiset.ofList l1 = Multiset.ofList l2 := by
  rw [h1] at h2
  rw [Except.ok.inj h2]

/-! ### Claim theorems -/

/-- C1: for every bound `n`, `count_primes n` is the number of primes in the
half-open range `[2, n)` (equivalently, the primes strictly below `n`), and
in particular it is `0` for every `n ≤ 2`. -/
theorem count_primes_spec (n : Nat) :
    count_primes n = ((Finset.range n).filter Nat.Prime).card ∧
    (n ≤ 2 → count_primes n = 0) := by
  refine ⟨count_primes_eq_card n, fun hle => ?_⟩
  rw [count_primes_eq_card n, Finset.card_eq_zero, Finset.filter_eq_empty_iff]
  intro x hx
  rw [Finset.mem_range] at hx
  intro hp
  exact absurd hp.two_le (by omega)

theorem count_primes_spec_witness :
    count_primes 10 = ((Finset.range 10).filter Nat.Prime).card ∧
    count_primes 2 = 0 :=
  ⟨(count_primes_spec 10).1, (count_primes_spec 2).2 (by decide)⟩

/-- C2: for either workload and any repetition count `k`, each of the three
strategy runners returns exactly `k` results (`List.replicate k`), every one
equal to the value of a single direct invocation of the workload with the
same argument (`count_primes n`, resp. the echoed duration `d`). -/
theorem strategies_return_k_results (k n : Nat) (d : ℚ) (hd : 0 ≤ d) :
    (run_sequential count_primes_task n k
        = .ok (List.replicate k (count_primes n)) ∧
     run_with_threads count_primes_task n k
        = .ok (List.replicate k (count_primes n)) ∧
     run_with_processes count_primes_task n k
        = .ok (List.replicate k (count_primes n))) ∧
    (run_sequential simulate_io d k = .ok (List.replicate k d) ∧
     run_with_threads simulate_io d k = .ok (List.replicate k d) ∧
     run_with_processes simulate_io d k = .ok (List.replicate k d)) := by
  have hc : count_primes_task n = .ok (count_primes n) := rfl
  have hi : simulate_io d = .ok d := simulate_io_ok d hd
  exact ⟨⟨run_sequential_ok _ _ _ _ hc, run_with_threads_ok _ _ _ _ hc,
          run_with_processes_ok _ _ _ _ hc⟩,
         ⟨run_sequential_ok _ _ _ _ hi, run_with_threads_ok _ _ _ _ hi,
          run_with_processes_ok _ _ _ _ hi⟩⟩

theorem strategies_return_k_results_witness :
    (run_sequential count_primes_task 10 3
        = .ok (List.replicate 3 (count_primes 10)) ∧
     run_with_threads count_primes_task 10 3
        = .ok (List.replicate 3 (count_primes 10)) ∧
     run_with_processes count_primes_task 10 3
        = .ok (List.replicate 3 (count_primes 10))) ∧
    (run_sequential simulate_io 1 3 = .ok (List.replicate 3 1) ∧
     run_with_threads simulate_io 1 3 = .ok (List.replicate 3 1) ∧
     run_with_processes simulate_io 1 3 = .ok (List.replicate 3 1)) :=
  strategies_return_k_results 3 10 1 (by norm_num)

/-- C3: for every non-negative duration `d`, `simulate_io d` returns
normally with exactly the value `d`, unchanged. -/
theorem simulate_io_returns_duration (d : ℚ) (hd : 0 ≤ d) :
    simulate_io d = .ok d :=
  simulate_io_ok d hd

theorem simulate_io_returns_duration_witness : simulate_io 1 = .ok 1 :=
  simulate_io_returns_duration 1 (by norm_num)

/-- C4: for every callable that returns a value, `measure_time` returns that
very value paired with the elapsed clock difference, which is non-negative
whenever the end timestamp is not before the start timestamp — including for
an instantaneous callable (equal timestamps, elapsed `0`). -/
theorem measure_time_spec {α β : Type} (func : α → Except PyErr β) (arg : α)
    (tStart tEnd : ℚ) (hclock : tStart ≤ tEnd) (v : β)
    (hv : func arg = .ok v) :
    measure_time func arg tStart tEnd = .ok (v, tEnd - tStart) ∧
    0 ≤ tEnd - tStart :=
  ⟨measure_time_ok func arg tStart tEnd v hv, by linarith⟩

theorem measure_time_spec_witness :
    measure_time (fun _ : Unit => (Except.ok 7 : Except PyErr Nat)) () 2 2
      = .ok (7, 2 - 2) ∧ (0 : ℚ) ≤ 2 - 2 :=
  measure_time_spec (fun _ : Unit => (Except.ok 7 : Except PyErr Nat)) ()
    2 2 (by norm_num) 7 rfl

/-- C5: `measure_time` propagates an exception of the callable unchanged,
and returns normally if and only if the callable does. -/
theorem measure_time_propagates {α β : Type} (func : α → Except PyErr β)
    (arg : α) (tStart tEnd : ℚ) :
    (∀ e : PyErr, func arg = .error e →
        measure_time func arg tStart tEnd = .error e) ∧
    ((∃ p, measure_time func arg tStart tEnd = .ok p)
        ↔ (∃ v, func arg = .ok v)) := by
  refine ⟨fun e he => ?_, ?_, ?_⟩
  · unfold measure_time
    rw [he]
  · rintro ⟨p, hp⟩
    cases hfa : func arg with
    | error e => simp [measure_time, hfa] at hp
    | ok v => exact ⟨v, rfl⟩
  · rintro ⟨v, hv⟩
    exact ⟨(v, tEnd - tStart), measure_time_ok func arg tStart tEnd v hv⟩

theorem measure_time_propagates_witness :
    measure_time
        (fun _ : Unit => (Except.error (PyErr.valueError "boom") : Except PyErr Nat))
        () 0 1
      = .error (PyErr.valueError "boom") :=
  (measure_time_propagates
    (fun _ : Unit => (Except.error (PyErr.valueError "boom") : Except PyErr Nat))
    () 0 1).1 (PyErr.valueError "boom") rfl

/-- C6: the sequential CPU-bound runner at the demo's constants (`N = 50000`,
`times_to_run = 4`) returns exactly four identical integers, each the prime
count below `50000`. -/
theorem cpu_sequential_scenario :
    run_sequential count_primes_task 50000 4
      = .ok (List.replicate 4 (count_primes 50000)) ∧
    N = 50000 ∧ times_to_run = 4 ∧
    count_primes 50000 = ((Finset.range 50000).filter Nat.Prime).card :=
  ⟨run_sequential_ok count_primes_task 50000 4 (count_primes 50000) rfl,
   rfl, rfl, count_primes_eq_card 50000⟩

/-- C7: for either workload, each of the three strategy runners is
idempotent: two successive invocations with identical arguments yield
result collections that are equal as multisets.  (In this value-level model
the futures' values depend only on their own task, so a runner denotes a
function of its arguments and both invocations denote the same value.) -/
theorem strategies_idempotent (k n : Nat) (d : ℚ) :
    (∀ l1 l2 : List Nat,
        run_sequential count_primes_task n k = .ok l1 →
        run_sequential count_primes_task n k = .ok l2 →
        Multiset.ofList l1 = Multiset.ofList l2) ∧
    (∀ l1 l2 : List Nat,
        run_with_threads count_primes_task n k = .ok l1 →
        run_with_threads count_primes_task n k = .ok l2 →
        Multiset.ofList l1 = Multiset.ofList l2) ∧
    (∀ l1 l2 : List Nat,
        run_with_processes count_primes_task n k = .ok l1 →
        run_with_processes count_primes_task n k = .ok l2 →
        Multiset.ofList l1 = Multiset.ofList l2) ∧
    (∀ l1 l2 : List ℚ,
        run_sequential simulate_io d k = .ok l1 →
        run_sequential simulate_io d k = .ok l2 →
        Multiset.ofList l1 = Multiset.ofList l2) ∧
    (∀ l1 l2 : List ℚ,
        run_with_threads simulate_io d k = .ok l1 →
        run_with_threads simulate_io d k = .ok l2 →
        Multiset.ofList l1 = Multiset.ofList l2) ∧
    (∀ l1 l2 : List ℚ,
        run_with_processes simulate_io d k = .ok l1 →
        run_with_processes simulate_io d k = .ok l2 →
        Multiset.ofList l1 = Multiset.ofList l2) :=
  ⟨ok_payload_unique _, ok_payload_unique _, ok_payload_unique _,
   ok_payload_unique _, ok_payload_unique _, ok_payload_unique _⟩

theorem strategies_idempotent_witness :
    Multiset.ofList [4, 4] = Multiset.ofList [4, 4] :=
  (strategies_idempotent 2 10 1).1 [4, 4] [4, 4] rfl rfl

/-- C10: for every negative duration `d`, `simulate_io d` does not return a
value: the underlying sleep raises `ValueError`, which propagates to the
caller. -/
theorem simulate_io_negative (d : ℚ) (hd : d < 0) :
    simulate_io d
      = .error (PyErr.valueError "sleep length must be non-negative") := by
  unfold simulate_io sleep
  rw [if_pos hd]
  rfl

theorem simulate_io_negative_witness :
    simulate_io (-1)
      = .error (PyErr.valueError "sleep length must be non-negative") :=
  simulate_io_negative (-1) (by norm_num)

/-- C9: run as the entry point, the program performs the CPU-bound
demonstration first and the I/O-bound demonstration second; within each, the
section header comes first and the strategies' timing lines appear in the
fixed order sequential, threads, processes (with the commentary notes after
the threads and processes lines). -/
theorem main_output_order (ts1 ts2 : Nat → ℚ) :
    main ts1 ts2 = .ok
      [Line.header .cpuBound,
       Line.timing .cpuBound .sequential (ts1 1 - ts1 0),
       Line.timing .cpuBound .threads (ts1 3 - ts1 2),
       Line.note .cpuBound .threads,
       Line.timing .cpuBound .processes (ts1 5 - ts1 4),
       Line.note .cpuBound .processes,
       Line.header .ioBound,
       Line.timing .ioBound .sequential (ts2 1 - ts2 0),
       Line.timing .ioBound .threads (ts2 3 - ts2 2),
       Line.note .ioBound .threads,
       Line.timing .ioBound .processes (ts2 5 - ts2 4),
       Line.note .ioBound .processes] := by
  have hc : count_primes_task N = .ok (count_primes N) := rfl
  have hi : simulate_io delay = .ok delay := simulate_io_ok delay (by norm_num [delay])
  unfold main demo_cpu_bound demo_io_bound
  rw [measure_time_ok (fun _ : Unit => run_sequential count_primes_task N times_to_run)
        () (ts1 0) (ts1 1) _ (run_sequential_ok count_primes_task N times_to_run _ hc),
      measure_time_ok (fun _ : Unit => run_with_threads count_primes_task N times_to_run)
        () (ts1 2) (ts1 3) _ (run_with_threads_ok count_primes_task N times_to_run _ hc),
      measure_time_ok (fun _ : Unit => run_with_processes count_primes_task N times_to_run)
        () (ts1 4) (ts1 5) _ (run_with_processes_ok count_primes_task N times_to_run _ hc),
      measure_time_ok (fun _ : Unit => run_sequential simulate_io delay times_to_run)
        () (ts2 0) (ts2 1) _ (run_sequential_ok simulate_io delay times_to_run _ hi),
      measure_time_ok (fun _ : Unit => run_with_threads simulate_io delay times_to_run)
        () (ts2 2) (ts2 3) _ (run_with_threads_ok simulate_io delay times_to_run _ hi),
      measure_time_ok (fun _ : Unit => run_with_processes simulate_io delay times_to_run)
        () (ts2 4) (ts2 5) _ (run_with_processes_ok simulate_io delay times_to_run _ hi)]
  rfl

end App
